import Mathlib

/-!
# Upload Integrity & Engagement Ledger subsystem — verification

Shallow embedding of the backend's core subsystem (`src/main.py`,
`src/schemas.py`): the streaming SHA-256 digest computation over uploaded
content, the upload-metadata record creation, the per-client engagement
ledger update, the report dispatch flow, and the read-only progress /
recent-uploads endpoints.

Machine words are modelled as `Nat` reduced modulo `2 ^ 32` where the source
(`hashlib`'s SHA-256) works with 32-bit words; byte streams are `List Nat`
(each element a byte value); the document store is explicit state threaded
through each handler.  The `database` module of the repository is not part
of the provided sources, so its operations (`create_document`,
`get_documents`) and the pymongo primitives (`find_one`, `update_one`)
are modelled from the spec's Document Store Adapter contract; those
definitions carry a `Modelled from the spec:` doc comment.
-/

set_option maxRecDepth 8000

namespace Nova

/-! ## SHA-256 (Digest Computer, `_sha256_file` in `src/main.py` + `hashlib`)

The hash itself is the full FIPS 180-4 SHA-256 algorithm: 32-bit words as
`Nat` mod `2 ^ 32`, the 64 round constants, the message schedule, the
compression function, merkle–damgård padding and lowercase-hex output.
The incremental interface mirrors `hashlib`: a hash object holds the chained
variables together with the unprocessed tail of the input, `update` feeds
bytes (compressing each completed 64-byte block), and `hexdigest` pads with
the total message length and emits 64 lowercase hex characters. -/

/-- Truncate to a 32-bit word, as every SHA-256 operation does. -/
def w32 (n : Nat) : Nat := n % 4294967296

/-- Right rotation of a 32-bit word by `k`. -/
def rotr (k x : Nat) : Nat := w32 ((x >>> k) ||| (x <<< (32 - k)))

/-- SHA-256 big sigma-0. -/
def bSig0 (x : Nat) : Nat := (rotr 2 x) ^^^ (rotr 13 x) ^^^ (rotr 22 x)

/-- SHA-256 big sigma-1. -/
def bSig1 (x : Nat) : Nat := (rotr 6 x) ^^^ (rotr 11 x) ^^^ (rotr 25 x)

/-- SHA-256 small sigma-0. -/
def sSig0 (x : Nat) : Nat := (rotr 7 x) ^^^ (rotr 18 x) ^^^ (x >>> 3)

/-- SHA-256 small sigma-1. -/
def sSig1 (x : Nat) : Nat := (rotr 17 x) ^^^ (rotr 19 x) ^^^ (x >>> 10)

/-- SHA-256 choice function. -/
def ch (x y z : Nat) : Nat := (x &&& y) ^^^ ((x ^^^ 0xffffffff) &&& z)

/-- SHA-256 majority function. -/
def maj (x y z : Nat) : Nat := (x &&& y) ^^^ (x &&& z) ^^^ (y &&& z)

/-- The 64 SHA-256 round constants. -/
def K : List Nat :=
  [0x428A2F98, 0x71374491, 0xB5C0FBCF, 0xE9B5DBA5, 0x3956C25B, 0x59F111F1,
   0x923F82A4, 0xAB1C5ED5, 0xD807AA98, 0x12835B01, 0x243185BE, 0x550C7DC3,
   0x72BE5D74, 0x80DEB1FE, 0x9BDC06A7, 0xC19BF174, 0xE49B69C1, 0xEFBE4786,
   0x0FC19DC6, 0x240CA1CC, 0x2DE92C6F, 0x4A7484AA, 0x5CB0A9DC, 0x76F988DA,
   0x983E5152, 0xA831C66D, 0xB00327C8, 0xBF597FC7, 0xC6E00BF3, 0xD5A79147,
   0x06CA6351, 0x14292967, 0x27B70A85, 0x2E1B2138, 0x4D2C6DFC, 0x53380D13,
   0x650A7354, 0x766A0ABB, 0x81C2C92E, 0x92722C85, 0xA2BFE8A1, 0xA81A664B,
   0xC24B8B70, 0xC76C51A3, 0xD192E819, 0xD6990624, 0xF40E3585, 0x106AA070,
   0x19A4C116, 0x1E376C08, 0x2748774C, 0x34B0BCB5, 0x391C0CB3, 0x4ED8AA4A,
   0x5B9CCA4F, 0x682E6FF3, 0x748F82EE, 0x78A5636F, 0x84C87814, 0x8CC70208,
   0x90BEFFFA, 0xA4506CEB, 0xBEF9A3F7, 0xC67178F2]

/-- The SHA-256 initial hash value. -/
def H0 : List Nat :=
  [0x6A09E667, 0xBB67AE85, 0x3C6EF372, 0xA54FF53A,
   0x510E527F, 0x9B05688C, 0x1F83D9AB, 0x5BE0CD19]

/-- Big-endian packing of bytes into 32-bit words. -/
def bytesToWords : List Nat → List Nat
  | a :: b :: c :: d :: t => ((a <<< 24) ||| (b <<< 16) ||| (c <<< 8) ||| d) :: bytesToWords t
  | _ => []

/-- Extend the 16 block words by `k` message-schedule words. -/
def extendW : List Nat → Nat → List Nat
  | ws, 0 => ws
  | ws, k + 1 =>
    let n := ws.length
    extendW (ws ++ [w32 (sSig1 (ws.getD (n - 2) 0) + ws.getD (n - 7) 0 +
                         sSig0 (ws.getD (n - 15) 0) + ws.getD (n - 16) 0)]) k

/-- The eight working registers of the compression loop. -/
structure Regs where
  a : Nat
  b : Nat
  c : Nat
  d : Nat
  e : Nat
  f : Nat
  g : Nat
  h : Nat

/-- One round of the SHA-256 compression loop, on a round constant paired
with a schedule word. -/
def roundStep (r : Regs) (kw : Nat × Nat) : Regs :=
  let t1 := w32 (r.h + bSig1 r.e + ch r.e r.f r.g + kw.1 + kw.2)
  let t2 := w32 (bSig0 r.a + maj r.a r.b r.c)
  ⟨w32 (t1 + t2), r.a, r.b, r.c, w32 (r.d + t1), r.e, r.f, r.g⟩

/-- Compress one 64-byte block into the chained variables. -/
def compress (hs : List Nat) (block : List Nat) : List Nat :=
  let ws := extendW (bytesToWords block) 48
  let r0 : Regs := ⟨hs.getD 0 0, hs.getD 1 0, hs.getD 2 0, hs.getD 3 0,
                    hs.getD 4 0, hs.getD 5 0, hs.getD 6 0, hs.getD 7 0⟩
  let r := (K.zip ws).foldl roundStep r0
  [w32 (hs.getD 0 0 + r.a), w32 (hs.getD 1 0 + r.b), w32 (hs.getD 2 0 + r.c),
   w32 (hs.getD 3 0 + r.d), w32 (hs.getD 4 0 + r.e), w32 (hs.getD 5 0 + r.f),
   w32 (hs.getD 6 0 + r.g), w32 (hs.getD 7 0 + r.h)]

/-- Mid-hash state: chained variables plus the yet-unprocessed tail
(fewer than 64 bytes once reached by feeding). -/
structure HState where
  hs : List Nat
  buf : List Nat

/-- Feed one byte into the hash state, compressing when a 64-byte block
completes.  `hashlib`'s block-buffered `update` is this, byte by byte. -/
def feedByte (st : HState) (b : Nat) : HState :=
  let buf2 := st.buf ++ [b]
  if buf2.length == 64 then ⟨compress st.hs buf2, []⟩ else ⟨st.hs, buf2⟩

/-- A `hashlib.sha256()` object: mid-hash state plus total bytes fed. -/
structure Hasher where
  st : HState
  msgLen : Nat

/-- The state of `hashlib.sha256()` before any `update`. -/
def Hasher.mkNew : Hasher := ⟨⟨H0, []⟩, 0⟩

/-- The `update` method: feed a byte string into the hash object. -/
def Hasher.update (h : Hasher) (data : List Nat) : Hasher :=
  ⟨data.foldl feedByte h.st, h.msgLen + data.length⟩

/-- Big-endian length suffix: the message bit length as 8 bytes. -/
def lenBytesBE (n : Nat) : List Nat :=
  [(n >>> 56) % 256, (n >>> 48) % 256, (n >>> 40) % 256, (n >>> 32) % 256,
   (n >>> 24) % 256, (n >>> 16) % 256, (n >>> 8) % 256, n % 256]

/-- Merkle–Damgård padding for a message of `len` bytes: `0x80`, zeros to
reach 56 mod 64, then the bit length as 8 big-endian bytes. -/
def padSuffix (len : Nat) : List Nat :=
  0x80 :: (List.replicate ((119 - len % 64) % 64) 0 ++ lenBytesBE (8 * len))

/-- A lowercase hexadecimal digit character. -/
def hexChar (n : Nat) : Char := if n < 10 then Char.ofNat (48 + n) else Char.ofNat (87 + n)

/-- A byte as two lowercase hex characters. -/
def byteHex (b : Nat) : List Char := [hexChar (b / 16), hexChar (b % 16)]

/-- Big-endian bytes of a 32-bit word. -/
def wordBytesBE (w : Nat) : List Nat := [(w >>> 24) % 256, (w >>> 16) % 256, (w >>> 8) % 256, w % 256]

/-- The `hexdigest` method: feed the padding, then print the eight chained
words as 64 lowercase hexadecimal characters. -/
def Hasher.hexdigest (h : Hasher) : String :=
  String.mk (((((padSuffix h.msgLen).foldl feedByte h.st).hs.flatMap wordBytesBE).flatMap byteHex))

/-- Reference one-shot digest: `hashlib.sha256(msg).hexdigest()`. -/
def sha256Hex (msg : List Nat) : String := (Hasher.mkNew.update msg).hexdigest


/-! ## The uploaded byte source

Starlette's `UploadFile` is a readable, seekable byte source: `read n`
returns up to `n` bytes from the current position and advances it,
`read`-all returns the rest, `seek 0` restores the origin. -/

/-- A seekable byte source: the bytes and the current read position. -/
structure PyFile where
  content : List Nat
  pos : Nat
deriving DecidableEq

/-- The chunk `await file.read(n)` returns, together with the advanced file. -/
def PyFile.read (f : PyFile) (n : Nat) : List Nat × PyFile :=
  ((f.content.drop f.pos).take n, ⟨f.content, f.pos + ((f.content.drop f.pos).take n).length⟩)

/-- The rest of the stream, `await file.read()` with no size argument. -/
def PyFile.readAll (f : PyFile) : List Nat × PyFile :=
  (f.content.drop f.pos, ⟨f.content, f.pos + (f.content.drop f.pos).length⟩)

/-- The effect of `await file.seek(0)`. -/
def PyFile.seekStart (f : PyFile) : PyFile := ⟨f.content, 0⟩

/-- The `while True` loop of `_sha256_file` (src/main.py lines 59-63): read a
chunk of at most `1024 * 1024` bytes, stop on an empty chunk, otherwise feed
the chunk to the hasher and continue.  The loop consumes at least one byte
per iteration, so `content.length + 1` rounds of fuel always suffice; the
fuel only bounds the recursion and is never exhausted on the stated runs. -/
def hashLoopF : Nat → Hasher → PyFile → Hasher × PyFile
  | 0, hasher, f => (hasher, f)
  | fuel + 1, hasher, f =>
    if ((f.read 1048576).1).isEmpty then (hasher, f)
    else hashLoopF fuel (hasher.update (f.read 1048576).1) (f.read 1048576).2

/-- The helper `_sha256_file` (src/main.py lines 57-65): stream the file in
1 MiB chunks through a fresh SHA-256 object, seek back to the origin, and
return the hex digest together with the rewound file. -/
def sha256File (f : PyFile) : String × PyFile :=
  ((hashLoopF (f.content.length + 1) Hasher.mkNew f).1.hexdigest,
   (hashLoopF (f.content.length + 1) Hasher.mkNew f).2.seekStart)

/-! ## Data model (`src/schemas.py`) and the document store

The `database` module is imported by `src/main.py` but is not among the
provided sources; the store and its operations are therefore modelled from
the spec's Document Store Adapter contract (spec section 4.2): one logical
collection per record kind, `create` appends a record and returns a
generated identifier, `find_one` returns the first record matching a
field filter, `update_one` mutates the first match in place. -/

/-- Metadata for an uploaded file (`Upload` in src/schemas.py). -/
structure Upload where
  filename : String
  content_type : String
  size_bytes : Nat
  sha256 : String
  verdict : String
  notes : Option String
  client_id : Option String
deriving DecidableEq

/-- Gamification progress for a client (`UserProgress` in src/schemas.py). -/
structure UserProgress where
  client_id : String
  points : Nat
  uploads_count : Nat
  badges : List String
deriving DecidableEq

/-- A problem/feedback report (`Report` in src/schemas.py); `sent_to_owner`
defaults to `false` and `created_at` is the creation timestamp. -/
structure Report where
  client_id : Option String
  subject : String
  message : String
  from_email : Option String
  sent_to_owner : Bool
  created_at : Option Nat
deriving DecidableEq

/-- Modelled from the spec: the document store behind the missing `database`
module — "a schemaless persistence layer storing typed records grouped into
named collections"; one field per collection the core uses. -/
structure Store where
  uploads : List Upload
  userprogress : List UserProgress
  reports : List Report
deriving DecidableEq

/-- A store with no records. -/
def Store.new : Store := ⟨[], [], []⟩

/-- First element satisfying a predicate: pymongo's `find_one` over a
collection held as a list in insertion order. -/
def findO (p : α → Bool) : List α → Option α
  | [] => none
  | x :: xs => if p x then some x else findO p xs

/-- Position of the first element satisfying a predicate: the `_id` handle
`find_one` hands back, used to address an `update_one` at that record. -/
def findIdxO (p : α → Bool) : List α → Option Nat
  | [] => none
  | x :: xs => if p x then some 0 else (findIdxO p xs).map (· + 1)

/-- Replace the record at one position, leaving every other record alone:
pymongo's `update_one` once the target `_id` is known. -/
def updateAt (l : List α) (i : Nat) (g : α → α) : List α :=
  match l, i with
  | [], _ => []
  | x :: xs, 0 => g x :: xs
  | x :: xs, i + 1 => x :: updateAt xs i g

/-! ## HTTP results

A handler run ends in a JSON value (HTTP 200), a raised `HTTPException`
with a status code and detail, or an exception that escapes the handler,
which FastAPI surfaces as an HTTP 500 server error. -/

/-- Outcome of one handler invocation. -/
inductive HResp (α : Type) where
  | ok : α → HResp α
  | httpError : Nat → String → HResp α
  | serverError : String → HResp α
deriving DecidableEq

/-- The HTTP status code a client observes for a handler outcome. -/
def HResp.status : HResp α → Nat
  | .ok _ => 200
  | .httpError s _ => s
  | .serverError _ => 500

/-- Whether a status code is in the client-error class 4xx. -/
def isClientError (n : Nat) : Bool := 400 ≤ n && n < 500

/-! ## Upload endpoint and Engagement Ledger (`upload_file`, src/main.py 68-97) -/

/-- Response body of `POST /api/uploads`. -/
structure UploadResp where
  ok : Bool
  id : Nat
  sha256 : String
deriving DecidableEq

/-- The `$inc` mutation of src/main.py line 93: ten points and one upload. -/
def bumpProgress (r : UserProgress) : UserProgress :=
  { r with points := r.points + 10, uploads_count := r.uploads_count + 1 }

/-- Lines 91-95 of src/main.py on the `userprogress` collection: `find_one`
on the client id, then an atomic `$inc` on the found record, or the creation
of a fresh `UserProgress(client_id, points=10, uploads_count=1)` (badges
default to `[]` in src/schemas.py). -/
def awardList (l : List UserProgress) (cid : String) : List UserProgress :=
  match findIdxO (fun r => r.client_id == cid) l with
  | some i => updateAt l i bumpProgress
  | none => l ++ [⟨cid, 10, 1, []⟩]

/-- The ledger update of `upload_file`, as a store transformer. -/
def awardUpload (s : Store) (cid : String) : Store :=
  { s with userprogress := awardList s.userprogress cid }

/-- The `POST /api/uploads` handler (src/main.py lines 68-97): reject when no
store connection is configured, hash the stream, re-read it for its size,
seek back, persist the metadata record, then update the ledger.  The handler
is given the parsed multipart fields and the file; the store is threaded
explicitly (`none` models `db is None`). -/
def upload_file (db : Option Store) (client_id : String) (filename : String)
    (content_type : Option String) (file : PyFile) : HResp UploadResp × Option Store :=
  match db with
  | none => (.httpError 500 "Database not configured", none)
  | some s =>
    let checksum := (sha256File file).1
    let f1 := (sha256File file).2
    let content := (f1.readAll).1
    let size := content.length
    let metadata : Upload :=
      ⟨filename, content_type.getD "application/octet-stream", size, checksum,
       "scanned", none, some client_id⟩
    let doc_id := s.uploads.length
    let s1 : Store := { s with uploads := s.uploads ++ [metadata] }
    let s2 := awardUpload s1 client_id
    (.ok ⟨true, doc_id, checksum⟩, some s2)

/-- The store a sequential upload leaves behind (the second component of
`upload_file`, which is always `some` when the store is configured). -/
def uploadStore (s : Store) (cid fn : String) (ct : Option String) (f : PyFile) : Store :=
  match (upload_file (some s) cid fn ct f).2 with
  | some s2 => s2
  | none => s

/-! ## Ask endpoint (`ask_ai`, src/main.py 106-118) -/

/-- Body of `POST /api/ask`. -/
structure AskRequest where
  question : String
  client_id : Option String

/-- Python's whitespace class, as `str.strip()` uses it. -/
def isPySpace (c : Char) : Bool :=
  c == ' ' || c == '\t' || c == '\n' || c == '\r' || c == Char.ofNat 11 || c == Char.ofNat 12

/-- Python's `s.strip()`: drop whitespace from both ends. -/
def pyStrip (s : List Char) : List Char :=
  ((s.dropWhile isPySpace).reverse.dropWhile isPySpace).reverse

/-- Split a character sequence at every occurrence of a separator, as
Python's `s.split(sep)` does for a one-character separator. -/
def splitAtChar (ch : Char) : List Char → List (List Char)
  | [] => [[]]
  | c :: rest =>
    if c == ch then [] :: splitAtChar ch rest
    else
      match splitAtChar ch rest with
      | h :: t2 => (c :: h) :: t2
      | [] => [[c]]

/-- Whether the first sequence starts the second. -/
def isPrefixL : List Char → List Char → Bool
  | [], _ => true
  | _ :: _, [] => false
  | a :: t1, b :: t2 => a == b && isPrefixL t1 t2

/-- Python's `t in s` on strings: `t` occurs contiguously in `s`. -/
def subList (t : List Char) : List Char → Bool
  | [] => t.isEmpty
  | c :: rest => isPrefixL t (c :: rest) || subList t rest

/-- The `POST /api/ask` handler (src/main.py lines 106-118): strip the
question, reject an empty one with HTTP 400, else answer one of the three
canned strings by keyword over the lowercased question.  It performs no
store operation at all, which its type records. -/
def ask_ai (payload : AskRequest) : HResp String :=
  let q := pyStrip payload.question.toList
  if q.isEmpty then .httpError 400 "Question cannot be empty"
  else if subList "upload".toList (q.map Char.toLower) then
    .ok ("Nova AI: " ++ "Your uploads are secured with checksum verification and metadata auditing.")
  else if subList "security".toList (q.map Char.toLower) then
    .ok ("Nova AI: " ++ "We apply zero-trust principles, integrity hashing, and encrypted storage pipelines.")
  else
    .ok ("Nova AI: " ++ "I can help with uploads, security practices, and status. Ask me about how we protect your data.")

/-! ## Report endpoint and Report Dispatcher (`report_issue`, src/main.py 126-167) -/

/-- Body of `POST /api/report` (`ReportRequest` in src/main.py). -/
structure ReportRequest where
  client_id : String
  subject : String
  message : String
  from_email : Option String
deriving DecidableEq

/-- Response body of `POST /api/report`. -/
structure ReportResp where
  ok : Bool
  sent : Bool
  owner : String
deriving DecidableEq

/-- SMTP configuration as read from the environment: `SMTP_HOST`,
`SMTP_PORT`, `SMTP_USER`, `SMTP_PASS`, each absent or a string. -/
structure SmtpCfg where
  host : Option String
  port : Option String
  user : Option String
  passwd : Option String
deriving DecidableEq

/-- Python truthiness of an optional environment string: `None` and the
empty string are falsy. -/
def truthy : Option String → Bool
  | none => false
  | some s => !s.isEmpty

/-- Whether `int(os.getenv("SMTP_PORT", "587"))` succeeds: the default
parses, and a set value must be a decimal integer. -/
def portOk : Option String → Bool
  | none => true
  | some sp => sp.toInt?.isSome

/-- Modelled from the spec: syntactic validity of an email address, the check
"must be a syntactically valid email address when present" performed by the
external pydantic `EmailStr` type (the `email_validator` package, not part of
this repository): one at-sign between a nonempty local part and a nonempty
domain that contains a dot, with no spaces. -/
def validEmail (s : String) : Bool :=
  match splitAtChar '@' s.toList with
  | [lp, dom] => !lp.isEmpty && !dom.isEmpty && dom.contains '.' && !(s.toList.contains ' ')
  | _ => false

/-- Validity of the optional `from_email` field: absent is fine, present
must parse. -/
def emailOk : Option String → Bool
  | none => true
  | some e => validEmail e

/-- The record `Report(...)` of src/main.py lines 131-137 builds when its
field validation passes. -/
def reportOf (p : ReportRequest) (now : Nat) : Report :=
  ⟨some p.client_id, p.subject, p.message, p.from_email, false, some now⟩

/-- Constructing `Report(...)` (src/main.py lines 131-137): pydantic
validates `from_email` against `EmailStr` and raises a `ValidationError`
out of the handler when it is malformed; `sent_to_owner` takes its declared
default `false`. -/
def mkReport (p : ReportRequest) (now : Nat) : Except String Report :=
  match p.from_email with
  | none => .ok (reportOf p now)
  | some e =>
    if validEmail e then .ok (reportOf p now)
    else .error "value is not a valid email address"

/-- The `sent` flag after the try/except of src/main.py lines 142-162: the
attempt is made only when host, user and password are all truthy, the port
string parses, and the SMTP session itself succeeds (`sendOk` stands for the
external mail transport's outcome); any failure is caught and leaves
`sent = False`. -/
def sentFlag (cfg : SmtpCfg) (sendOk : Bool) : Bool :=
  portOk cfg.port && truthy cfg.host && truthy cfg.user && truthy cfg.passwd && sendOk

/-- Whether all three mail credentials are configured. -/
def mailConfigured (cfg : SmtpCfg) : Bool :=
  truthy cfg.host && truthy cfg.user && truthy cfg.passwd

/-- `update_one({"client_id": cid, "subject": subj}, {"$set": {"sent_to_owner": True}})`
(src/main.py line 165): mark the first matching report delivered. -/
def markSent (l : List Report) (cid subj : String) : List Report :=
  match findIdxO (fun r => r.client_id == some cid && r.subject == subj) l with
  | some i => updateAt l i (fun r => { r with sent_to_owner := true })
  | none => l

/-- The `POST /api/report` handler (src/main.py lines 126-167): reject when
no store is configured; build the `Report` record (pydantic raising on a
malformed email escapes as a 500 server error, before anything is
persisted); persist it; attempt one best-effort delivery; on confirmed
delivery mark the first report matching `(client_id, subject)` as sent;
always answer `{ok: True, sent, owner}`. -/
def report_issue (db : Option Store) (p : ReportRequest) (cfg : SmtpCfg)
    (now : Nat) (ownerEmail : String) (sendOk : Bool) :
    HResp ReportResp × Option Store :=
  match db with
  | none => (.httpError 500 "Database not configured", none)
  | some s =>
    match mkReport p now with
    | .error e => (.serverError e, some s)
    | .ok rep =>
      let s1 : Store := { s with reports := s.reports ++ [rep] }
      let sent := sentFlag cfg sendOk
      let s2 : Store :=
        if sent then { s1 with reports := markSent s1.reports p.client_id p.subject } else s1
      (.ok ⟨true, sent, ownerEmail⟩, some s2)

/-! ## Read-only endpoints (`get_progress`, `recent_uploads`, src/main.py 169-184) -/

/-- Response body of `GET /api/progress/{client_id}`. -/
structure ProgressResp where
  points : Nat
  uploads_count : Nat
  badges : List String
deriving DecidableEq

/-- The `GET /api/progress/{client_id}` handler (src/main.py lines 169-175):
look the client up when the store is available, fall back to the zero-value
defaults when the store is unavailable or no record matches.  The handler
contains no raise, which the plain (non-`HResp`) result type records. -/
def get_progress (db : Option Store) (cid : String) : ProgressResp :=
  match db with
  | none => ⟨0, 0, []⟩
  | some s =>
    match findO (fun r => r.client_id == cid) s.userprogress with
    | none => ⟨0, 0, []⟩
    | some r => ⟨r.points, r.uploads_count, r.badges⟩

/-- Modelled from the spec: `get_documents("upload", {}, limit)` from the
missing `database` module — query the upload collection with an empty
filter and the given limit ("array of upload records", query `limit`
default 10). -/
def get_documents (s : Store) (limit : Nat) : List Upload := s.uploads.take limit

/-- The `GET /api/uploads/recent` handler (src/main.py lines 177-184): an
empty list when the store is unavailable, else up to `limit` upload
records. -/
def recent_uploads (db : Option Store) (limit : Nat) : List Upload :=
  match db with
  | none => []
  | some s => get_documents s limit

/-! ## Interleaving model of concurrent ledger updates

The ledger update of src/main.py lines 91-95 is two storage round-trips per
request: the `find_one` read, then either the atomic `$inc` write on the
`_id` the read returned, or an insert of a fresh record.  Each round-trip is
one atomic step of the store; steps of concurrent requests may interleave
arbitrarily.  All requests here carry the same `client_id`, so a progress
record is just its `(points, uploads_count)` pair and the collection a list
of such records in insertion order (`find_one` returns the first). -/

/-- Where one in-flight upload request stands in its ledger update:
not yet read, read returned this `_id` (or no record), or finished. -/
inductive OpPhase where
  | ready : OpPhase
  | readDone : Option Nat → OpPhase
  | fin : OpPhase
deriving DecidableEq

/-- The store's `userprogress` records for the one client, plus each
in-flight request's phase. -/
structure LSys where
  recs : List (Nat × Nat)
  ops : List OpPhase
deriving DecidableEq

/-- Total read of request `i`'s phase; an index out of range reads as a
finished request, so such indices make a schedule entry a no-op. -/
def phAt (l : List OpPhase) (i : Nat) : OpPhase :=
  match l, i with
  | [], _ => OpPhase.fin
  | x :: _, 0 => x
  | _ :: t, i + 1 => phAt t i

/-- One atomic storage step of request `i`: a `ready` request performs the
`find_one` (first record, or none); a request holding a read result performs
its write — the atomic `$inc` on the record it found, or the insert of
`(points 10, uploads_count 1)`.  Finished requests do nothing. -/
def lstep (s : LSys) (i : Nat) : LSys :=
  match phAt s.ops i with
  | .ready =>
    ⟨s.recs,
     updateAt s.ops i (fun _ => OpPhase.readDone (if s.recs.isEmpty then none else some 0))⟩
  | .readDone none =>
    ⟨s.recs ++ [(10, 1)], updateAt s.ops i (fun _ => OpPhase.fin)⟩
  | .readDone (some j) =>
    ⟨updateAt s.recs j (fun r => (r.1 + 10, r.2 + 1)), updateAt s.ops i (fun _ => OpPhase.fin)⟩
  | .fin => s

/-- Run a whole interleaving: the schedule lists, in order, which request
takes the next atomic step. -/
def lrun (s : LSys) (sched : List Nat) : LSys := sched.foldl lstep s

/-- Whether a request has finished. -/
def isFin : OpPhase → Bool
  | .fin => true
  | _ => false

/-- How many requests have finished. -/
def countFin (l : List OpPhase) : Nat := (l.filter isFin).length

/-- What `get_progress` reports after the run: the first record, or the
zero defaults. -/
def lprogress (s : LSys) : Nat × Nat := s.recs.getD 0 (0, 0)

/-- A phase is sound when its read result points at the first record. -/
def okPhase : OpPhase → Bool
  | .readDone none => false
  | .readDone (some j) => j == 0
  | _ => true

/-- Invariant of an interleaved run that began with one existing progress
record `(p, u)`: every in-flight read found that record, and the record has
been incremented once per finished request. -/
def LInv (p u : Nat) (s : LSys) : Prop :=
  (∀ ph ∈ s.ops, okPhase ph = true) ∧
  s.recs = [(p + 10 * countFin s.ops, u + countFin s.ops)]

/-- The default record a report read falls back to (its flag is unset). -/
def dRep : Report := ⟨none, "", "", none, false, none⟩

/-- The arguments of one `POST /api/report` invocation: the payload, the
environment's mail configuration, the clock, the owner address, and the
external mail transport's outcome. -/
structure ReportCall where
  p : ReportRequest
  cfg : SmtpCfg
  now : Nat
  owner : String
  sendOk : Bool

/-- The store one report submission leaves behind. -/
def reportStep (s : Store) (c : ReportCall) : Store :=
  match (report_issue (some s) c.p c.cfg c.now c.owner c.sendOk).2 with
  | some s2 => s2
  | none => s

/-- The store a whole sequence of report submissions leaves behind; the
only code that ever touches the report collection is `report_issue`. -/
def runReports (s : Store) (cs : List ReportCall) : Store := cs.foldl reportStep s

/-! ## Lemmas about the incremental hash and the chunked file loop -/

/-- FIPS 180-4 test vector: the empty message, checking the whole pipeline
(initial value, padding, compression, hex output) in one evaluation. -/
theorem sha256Hex_empty_vector :
    sha256Hex [] = "e3b0c44298fc1c149afbf4c8996fb92427ae41e4649b934ca495991b7852b855" := by
  decide

/-- FIPS 180-4 test vector: the three-byte message "abc", checking the
message schedule and round constants on nonempty input. -/
theorem sha256Hex_abc_vector :
    sha256Hex [0x61, 0x62, 0x63] =
      "ba7816bf8f01cfea414140de5dae2223b00361a396177a9cb410ff61f20015ad" := by
  decide

/-- Feeding nothing leaves a hash object unchanged. -/
theorem Hasher.update_nil (h : Hasher) : h.update [] = h := by
  simp [Hasher.update]

/-- Two consecutive `update` calls feed the concatenation: the block-buffered
state depends only on the bytes seen, not on how they were sliced. -/
theorem Hasher.update_append (h : Hasher) (a b : List Nat) :
    (h.update a).update b = h.update (a ++ b) := by
  simp [Hasher.update, List.foldl_append, Nat.add_assoc]

/-- Folding `update` over any chunk list hashes the chunks' concatenation. -/
theorem foldl_update_eq_join (chunks : List (List Nat)) (h : Hasher) :
    chunks.foldl Hasher.update h = h.update chunks.flatten := by
  induction chunks generalizing h with
  | nil => simp [Hasher.update_nil]
  | cons c cs ih =>
    rw [List.foldl_cons, ih, Hasher.update_append, List.flatten_cons]

/-- The chunked read loop of `_sha256_file` feeds exactly the unread tail of
the file into the hasher and leaves the position at the end of the stream,
whenever the fuel exceeds the number of unread bytes. -/
theorem hashLoopF_eq (fuel : Nat) (h : Hasher) (c : List Nat) (p : Nat)
    (hf : c.length - p < fuel) :
    hashLoopF fuel h ⟨c, p⟩ =
      (if (c.drop p).isEmpty then h else h.update (c.drop p),
       ⟨c, p + (c.drop p).length⟩) := by
  induction fuel generalizing h p with
  | zero => omega
  | succ fuel ih =>
    rw [hashLoopF]
    simp only [PyFile.read]
    by_cases hemp : ((c.drop p).take 1048576).isEmpty = true
    · have hnil : c.drop p = [] := by
        rcases hd : c.drop p with _ | ⟨x, t⟩
        · rfl
        · rw [hd] at hemp; simp at hemp
      simp [hemp, hnil]
    · have hne : c.drop p ≠ [] := by
        intro hd; rw [hd] at hemp; simp at hemp
      have hdl : (c.drop p).length = c.length - p := by simp
      have hdpos : 0 < (c.drop p).length := List.length_pos.mpr hne
      have hcl : ((c.drop p).take 1048576).length = min 1048576 (c.drop p).length := by
        simp
      have hpos : 0 < ((c.drop p).take 1048576).length := by
        rw [hcl]; omega
      have hle : ((c.drop p).take 1048576).length ≤ (c.drop p).length := by
        rw [hcl]; omega
      have hfuel : c.length - (p + ((c.drop p).take 1048576).length) < fuel := by
        omega
      rw [if_neg hemp, ih _ _ hfuel]
      have hdd : (c.drop p).drop ((c.drop p).take 1048576).length =
          c.drop (p + ((c.drop p).take 1048576).length) := by
        rw [List.drop_drop, Nat.add_comm]
      have hrl : (c.drop (p + ((c.drop p).take 1048576).length)).length =
          (c.drop p).length - ((c.drop p).take 1048576).length := by
        rw [← hdd]; simp only [List.length_drop]
      by_cases hbig : (c.drop p).length ≤ 1048576
      · have htake : (c.drop p).take 1048576 = c.drop p :=
          List.take_of_length_le hbig
        have hrest : c.drop (p + ((c.drop p).take 1048576).length) = [] := by
          rw [← hdd, htake]
          exact List.drop_length _
        rw [hrest]
        simp [htake, List.isEmpty_iff, hne]
      · have hlen : ((c.drop p).take 1048576).length = 1048576 := by
          rw [hcl]; omega
        have hrest : c.drop (p + ((c.drop p).take 1048576).length) ≠ [] := by
          intro hdnil
          rw [hdnil] at hrl
          simp at hrl
          omega
        have hjoin : (c.drop p).take 1048576 ++
            c.drop (p + ((c.drop p).take 1048576).length) = c.drop p := by
          rw [← hdd, hlen]
          exact List.take_append_drop 1048576 (c.drop p)
        rw [if_neg (by simpa using hrest), Hasher.update_append, hjoin,
          if_neg (by simpa using hne)]
        have hposeq : p + ((c.drop p).take 1048576).length +
            (c.drop (p + ((c.drop p).take 1048576).length)).length =
            p + (c.drop p).length := by
          rw [hrl]; omega
        rw [hposeq]

/-- `_sha256_file` on a stream positioned at the origin: the digest is the
one-shot SHA-256 of the whole content, and the returned stream is rewound
to the origin. -/
theorem sha256File_eq (c : List Nat) :
    sha256File ⟨c, 0⟩ = (sha256Hex c, ⟨c, 0⟩) := by
  have h := hashLoopF_eq (c.length + 1) Hasher.mkNew c 0 (by omega)
  simp only [List.drop_zero] at h
  simp only [sha256File, h, PyFile.seekStart]
  by_cases hcE : c.isEmpty = true
  · have hnil : c = [] := List.isEmpty_iff.mp hcE
    subst hnil
    simp [sha256Hex, Hasher.update_nil]
  · simp [hcE, sha256Hex]

/-! ## Lemmas about the modelled store primitives -/

/-- Updating one record keeps the collection's size. -/
theorem updateAt_length (l : List α) (i : Nat) (g : α → α) :
    (updateAt l i g).length = l.length := by
  induction l generalizing i with
  | nil => rfl
  | cons x t ih =>
    cases i with
    | zero => rfl
    | succ j => simp [updateAt, ih]

/-- Reading past the end of a collection yields the default. -/
theorem getD_of_le (l : List α) (i : Nat) (d : α) (h : l.length ≤ i) :
    l.getD i d = d := by
  induction l generalizing i with
  | nil => simp
  | cons x t ih =>
    cases i with
    | zero => simp at h
    | succ j => simpa using ih j (by simpa using h)


/-- Appending records does not disturb in-range reads. -/
theorem getD_append_lt (l1 l2 : List α) (i : Nat) (d : α) (h : i < l1.length) :
    (l1 ++ l2).getD i d = l1.getD i d := by
  induction l1 generalizing i with
  | nil => simp at h
  | cons x t ih =>
    cases i with
    | zero => simp
    | succ j => simpa using ih j (by simpa using h)

/-- A read after `updateAt` sees either the old record or its update. -/
theorem getD_updateAt_or (l : List α) (j i : Nat) (g : α → α) (d : α) :
    (updateAt l j g).getD i d = l.getD i d ∨
      (updateAt l j g).getD i d = g (l.getD i d) := by
  induction l generalizing i j with
  | nil => left; rfl
  | cons x t ih =>
    cases j with
    | zero =>
      cases i with
      | zero => right; simp [updateAt]
      | succ k => left; simp [updateAt]
    | succ j2 =>
      cases i with
      | zero => left; simp [updateAt]
      | succ k => simpa [updateAt] using ih j2 k


/-- `find_one` misses exactly when no `_id` lookup would succeed. -/
theorem findO_eq_none_iff (p : α → Bool) (l : List α) :
    findO p l = none ↔ findIdxO p l = none := by
  induction l with
  | nil => simp [findO, findIdxO]
  | cons x t ih =>
    by_cases hx : p x
    · simp [findO, findIdxO, hx]
    · simpa [findO, findIdxO, hx] using ih

/-- A search that misses a first collection continues into the rest. -/
theorem findO_append_of_none (p : α → Bool) (l1 l2 : List α)
    (h : findO p l1 = none) : findO p (l1 ++ l2) = findO p l2 := by
  induction l1 with
  | nil => rfl
  | cons x t ih =>
    by_cases hx : p x
    · simp [findO, hx] at h
    · simp only [List.cons_append, findO, hx, if_neg, Bool.false_eq_true, if_false] at h ⊢
      exact ih h

/-! ## Lemmas about the Engagement Ledger -/

/-- A ledger update for a client with no record appends the fresh
`(points 10, uploads 1, badges [])` record. -/
theorem awardList_fresh (l : List UserProgress) (cid : String)
    (h : findO (fun r => r.client_id == cid) l = none) :
    awardList l cid = l ++ [⟨cid, 10, 1, []⟩] := by
  rw [awardList, (findO_eq_none_iff _ _).mp h]

/-- A ledger update for a client whose lookup finds `r` leaves the lookup
finding exactly `r` with ten more points and one more upload. -/
theorem findO_awardList (l : List UserProgress) (cid : String) (r : UserProgress)
    (h : findO (fun q => q.client_id == cid) l = some r) :
    findO (fun q => q.client_id == cid) (awardList l cid) = some (bumpProgress r) := by
  induction l with
  | nil => simp [findO] at h
  | cons x t ih =>
    by_cases hx : x.client_id == cid
    · have hr : x = r := by simpa [findO, hx] using h
      subst hr
      simp [awardList, findIdxO, hx, updateAt, findO, bumpProgress]
    · have ht : findO (fun q => q.client_id == cid) t = some r := by
        simpa [findO, hx] using h
      rcases hj : findIdxO (fun q => q.client_id == cid) t with _ | j
      · exfalso
        rw [(findO_eq_none_iff _ _).mpr hj] at ht
        exact Option.noConfusion ht
      · have hAt : awardList t cid = updateAt t j bumpProgress := by
          rw [awardList, hj]
        have hrec := ih ht
        rw [hAt] at hrec
        have hA : awardList (x :: t) cid = x :: updateAt t j bumpProgress := by
          rw [awardList]
          simp [findIdxO, hx, hj, updateAt]
        rw [hA]
        simpa [findO, hx] using hrec

/-- The ledger transformation a sequential upload performs, read off the
handler: the upload collection grows by the metadata record and the
progress collection by the `awardList` step. -/
theorem uploadStore_userprogress (s : Store) (cid fn : String)
    (ct : Option String) (f : PyFile) :
    (uploadStore s cid fn ct f).userprogress = awardList s.userprogress cid := rfl

/-! ## Lemmas about the interleaved ledger runs -/

/-- Count of finished requests, unfolded over a cons. -/
theorem countFin_cons (x : OpPhase) (t : List OpPhase) :
    countFin (x :: t) = (if isFin x then 1 else 0) + countFin t := by
  cases hx : isFin x <;> simp [countFin, List.filter_cons, hx] <;> omega

/-- Out-of-range phases read as finished. -/
theorem phAt_of_le (l : List OpPhase) (i : Nat) (h : l.length ≤ i) :
    phAt l i = OpPhase.fin := by
  induction l generalizing i with
  | nil => rfl
  | cons x t ih =>
    cases i with
    | zero => simp at h
    | succ j => exact ih j (by simpa using h)

/-- An in-range phase is one of the run's phases. -/
theorem phAt_mem (l : List OpPhase) (i : Nat) (h : i < l.length) :
    phAt l i ∈ l := by
  induction l generalizing i with
  | nil => simp at h
  | cons x t ih =>
    cases i with
    | zero => exact List.mem_cons_self _ _
    | succ j => exact List.mem_cons_of_mem _ (ih j (by simpa using h))

/-- A finished head raises the count by one. -/
theorem countFin_cons_fin (t : List OpPhase) :
    countFin (OpPhase.fin :: t) = countFin t + 1 := by
  simp [countFin, List.filter_cons, isFin]

/-- An unfinished head leaves the count alone. -/
theorem countFin_cons_nonfin (x : OpPhase) (t : List OpPhase)
    (hx : isFin x = false) : countFin (x :: t) = countFin t := by
  simp [countFin, List.filter_cons, hx]

/-- Replacing an unfinished phase by another unfinished one keeps the
finished count. -/
theorem countFin_updateAt_nonfin (l : List OpPhase) (i : Nat) (v : OpPhase)
    (h : i < l.length) (hold : isFin (phAt l i) = false) (hnew : isFin v = false) :
    countFin (updateAt l i (fun _ => v)) = countFin l := by
  induction l generalizing i with
  | nil => simp at h
  | cons x t ih =>
    cases i with
    | zero =>
      have hx : isFin x = false := hold
      show countFin (v :: t) = countFin (x :: t)
      rw [countFin_cons_nonfin v t hnew, countFin_cons_nonfin x t hx]
    | succ j =>
      show countFin (x :: updateAt t j (fun _ => v)) = countFin (x :: t)
      rw [countFin_cons, countFin_cons, ih j (by simpa using h) hold]

/-- Finishing an unfinished phase raises the finished count by one. -/
theorem countFin_updateAt_tofin (l : List OpPhase) (i : Nat)
    (h : i < l.length) (hold : isFin (phAt l i) = false) :
    countFin (updateAt l i (fun _ => OpPhase.fin)) = countFin l + 1 := by
  induction l generalizing i with
  | nil => simp at h
  | cons x t ih =>
    cases i with
    | zero =>
      have hx : isFin x = false := hold
      show countFin (OpPhase.fin :: t) = countFin (x :: t) + 1
      rw [countFin_cons_fin, countFin_cons_nonfin x t hx]
    | succ j =>
      show countFin (x :: updateAt t j (fun _ => OpPhase.fin)) = countFin (x :: t) + 1
      rw [countFin_cons, countFin_cons, ih j (by simpa using h) hold]
      omega

/-- A phase present after `updateAt` was present before or is the new one. -/
theorem mem_updateAt (l : List α) (i : Nat) (v : α) (x : α)
    (h : x ∈ updateAt l i (fun _ => v)) : x ∈ l ∨ x = v := by
  induction l generalizing i with
  | nil => simp [updateAt] at h
  | cons y t ih =>
    cases i with
    | zero =>
      simp only [updateAt, List.mem_cons] at h
      rcases h with h | h
      · right; exact h
      · left; exact List.mem_cons_of_mem _ h
    | succ j =>
      simp only [updateAt, List.mem_cons] at h
      rcases h with h | h
      · left; rw [h]; exact List.mem_cons_self _ _
      · rcases ih j h with h2 | h2
        · left; exact List.mem_cons_of_mem _ h2
        · right; exact h2


/-- No request among `N` fresh ones has finished. -/
theorem countFin_replicate (N : Nat) :
    countFin (List.replicate N OpPhase.ready) = 0 := by
  induction N with
  | zero => rfl
  | succ n ih => rw [List.replicate_succ, countFin_cons, ih]; simp [isFin]

/-- Each atomic step preserves the invariant: reads find the (sole, always
present) record, and each write is the atomic `$inc` on it. -/
theorem lstep_inv (p u : Nat) (s : LSys) (i : Nat) (h : LInv p u s) :
    LInv p u (lstep s i) := by
  obtain ⟨hok, hrec⟩ := h
  by_cases hrange : i < s.ops.length
  · rcases hph : phAt s.ops i with _ | found | _
    · -- ready: the find_one step
      have hfound : (if s.recs.isEmpty then none else some 0) = some 0 := by
        rw [hrec]; rfl
      have hstep : lstep s i =
          { s with ops := updateAt s.ops i (fun _ => OpPhase.readDone (some 0)) } := by
        simp only [lstep, hph, hfound]
      have hcnt : countFin (updateAt s.ops i (fun _ => OpPhase.readDone (some 0)))
          = countFin s.ops :=
        countFin_updateAt_nonfin s.ops i _ hrange (by rw [hph]; rfl) rfl
      constructor
      · intro ph hm
        rw [hstep] at hm
        rcases mem_updateAt _ _ _ _ hm with h2 | h2
        · exact hok ph h2
        · rw [h2]; rfl
      · rw [hstep]
        simpa [hcnt] using hrec
    · -- readDone: the write step
      rcases found with _ | j
      · exfalso
        have hm : OpPhase.readDone none ∈ s.ops := by
          rw [← hph]; exact phAt_mem _ _ hrange
        have := hok _ hm
        simp [okPhase] at this
      · have hj : j = 0 := by
          have hm : OpPhase.readDone (some j) ∈ s.ops := by
            rw [← hph]; exact phAt_mem _ _ hrange
          have := hok _ hm
          simpa [okPhase] using this
        subst hj
        have hstep : lstep s i =
            ⟨updateAt s.recs 0 (fun r => (r.1 + 10, r.2 + 1)),
             updateAt s.ops i (fun _ => OpPhase.fin)⟩ := by
          simp only [lstep, hph]
        have hcnt : countFin (updateAt s.ops i (fun _ => OpPhase.fin))
            = countFin s.ops + 1 :=
          countFin_updateAt_tofin s.ops i hrange (by rw [hph]; rfl)
        constructor
        · intro ph hm
          rw [hstep] at hm
          rcases mem_updateAt _ _ _ _ hm with h2 | h2
          · exact hok ph h2
          · rw [h2]; rfl
        · rw [hstep]
          simp only [hcnt, hrec, updateAt]
          simp only [List.cons.injEq, Prod.mk.injEq, and_true]
          omega
    · -- fin: no step
      have hstep : lstep s i = s := by simp only [lstep, hph]
      rw [hstep]; exact ⟨hok, hrec⟩
  · have hd : phAt s.ops i = OpPhase.fin := phAt_of_le _ _ (by omega)
    have hstep : lstep s i = s := by simp only [lstep, hd]
    rw [hstep]; exact ⟨hok, hrec⟩

/-- The invariant holds along any schedule. -/
theorem lrun_inv (p u : Nat) (s : LSys) (sched : List Nat) (h : LInv p u s) :
    LInv p u (lrun s sched) := by
  induction sched generalizing s with
  | nil => exact h
  | cons i rest ih => exact ih _ (lstep_inv p u s i h)

/-- A step never changes how many requests are in flight. -/
theorem lstep_ops_length (s : LSys) (i : Nat) :
    (lstep s i).ops.length = s.ops.length := by
  rcases hph : phAt s.ops i with _ | found | _
  · simp only [lstep, hph, updateAt_length]
  · rcases found with _ | j <;> simp only [lstep, hph, updateAt_length]
  · simp only [lstep, hph]


/-! ## Lemmas about the Report Dispatcher -/

/-- Constructing the `Report` record succeeds exactly on a valid (or absent)
`from_email`, yielding the record with its unset delivery flag. -/
theorem mkReport_ok (p : ReportRequest) (now : Nat)
    (hv : emailOk p.from_email = true) : mkReport p now = .ok (reportOf p now) := by
  rcases hp : p.from_email with _ | e
  · simp [mkReport, hp]
  · rw [hp] at hv
    simp only [emailOk] at hv
    simp [mkReport, hp, hv]

/-- Constructing the `Report` record raises pydantic's validation error on a
malformed `from_email`. -/
theorem mkReport_err (p : ReportRequest) (now : Nat)
    (hv : emailOk p.from_email = false) :
    mkReport p now = .error "value is not a valid email address" := by
  rcases hp : p.from_email with _ | e
  · rw [hp] at hv; simp [emailOk] at hv
  · rw [hp] at hv
    simp only [emailOk] at hv
    simp [mkReport, hp, hv]

/-- The whole effect of a report submission with a well-formed payload:
the response is always accepted with the best-effort `sent` flag, and the
store gains the new unsent record, marked only on confirmed delivery. -/
theorem report_issue_ok (s : Store) (p : ReportRequest) (cfg : SmtpCfg)
    (now : Nat) (owner : String) (sendOk : Bool)
    (hv : emailOk p.from_email = true) :
    report_issue (some s) p cfg now owner sendOk =
      (.ok ⟨true, sentFlag cfg sendOk, owner⟩,
       some (if sentFlag cfg sendOk then
               { s with reports := markSent (s.reports ++ [reportOf p now]) p.client_id p.subject }
             else { s with reports := s.reports ++ [reportOf p now] })) := by
  simp only [report_issue, mkReport_ok p now hv]

/-- A report submission with a malformed `from_email` escapes as the
validation error and leaves the store exactly as it was. -/
theorem report_issue_err (s : Store) (p : ReportRequest) (cfg : SmtpCfg)
    (now : Nat) (owner : String) (sendOk : Bool)
    (hv : emailOk p.from_email = false) :
    report_issue (some s) p cfg now owner sendOk =
      (.serverError "value is not a valid email address", some s) := by
  simp only [report_issue, mkReport_err p now hv]

/-- Marking delivery never clears a set flag. -/
theorem markSent_flag_mono (l : List Report) (cid subj : String) (i : Nat)
    (h : (l.getD i dRep).sent_to_owner = true) :
    ((markSent l cid subj).getD i dRep).sent_to_owner = true := by
  rw [markSent]
  rcases hj : findIdxO (fun r => r.client_id == some cid && r.subject == subj) l with _ | j
  · simp only [hj]; exact h
  · simp only [hj]
    rcases getD_updateAt_or l j i (fun r => { r with sent_to_owner := true }) dRep with h2 | h2
    · rw [h2]; exact h
    · rw [h2]

/-- One report submission leaves the report collection unchanged, appends
the fresh unsent record, or appends it and marks one delivery. -/
theorem reportStep_reports (s : Store) (c : ReportCall) :
    (reportStep s c).reports = s.reports ∨
    (reportStep s c).reports = s.reports ++ [reportOf c.p c.now] ∨
    (reportStep s c).reports =
      markSent (s.reports ++ [reportOf c.p c.now]) c.p.client_id c.p.subject := by
  cases hv : emailOk c.p.from_email
  · left
    simp [reportStep, report_issue_err s c.p c.cfg c.now c.owner c.sendOk hv]
  · by_cases hs : sentFlag c.cfg c.sendOk
    · right; right
      simp [reportStep, report_issue_ok s c.p c.cfg c.now c.owner c.sendOk hv, hs]
    · right; left
      simp [reportStep, report_issue_ok s c.p c.cfg c.now c.owner c.sendOk hv, hs]

/-- A delivered flag survives one further report submission. -/
theorem reportStep_flag_mono (s : Store) (c : ReportCall) (i : Nat)
    (h : ((s.reports.getD i dRep).sent_to_owner) = true) :
    (((reportStep s c).reports.getD i dRep).sent_to_owner) = true := by
  have hi : i < s.reports.length := by
    by_contra hge
    rw [getD_of_le _ _ _ (by omega)] at h
    simp [dRep] at h
  rcases reportStep_reports s c with h2 | h2 | h2 <;> rw [h2]
  · exact h
  · rw [getD_append_lt _ _ _ _ hi]; exact h
  · apply markSent_flag_mono
    rw [getD_append_lt _ _ _ _ hi]; exact h

/-- A delivered flag survives any further sequence of report submissions. -/
theorem runReports_flag_mono (cs : List ReportCall) (s : Store) (i : Nat)
    (h : ((s.reports.getD i dRep).sent_to_owner) = true) :
    (((runReports s cs).reports.getD i dRep).sent_to_owner) = true := by
  induction cs generalizing s with
  | nil => exact h
  | cons c rest ih => exact ih _ (reportStep_flag_mono s c i h)

/-- All `N` requests of a completed run read back as finished. -/
theorem countFin_replicate_fin (N : Nat) :
    countFin (List.replicate N OpPhase.fin) = N := by
  induction N with
  | zero => rfl
  | succ n ih => rw [List.replicate_succ, countFin_cons_fin, ih]

/-! ## The claims -/

/-- C1: for every byte sequence `B`, the digest `_sha256_file` computes by
streaming 1 MiB chunks is deterministic and equals the standard one-shot
SHA-256 lowercase hex digest of `B`; more generally, feeding any chunking of
`B` through the incremental hasher yields that same digest, so the result is
independent of chunk boundaries; and the empty input digests to
`e3b0c44298fc1c149afbf4c8996fb92427ae41e4649b934ca495991b7852b855`. -/
theorem sha256File_digest_correct :
    (∀ content : List Nat, (sha256File ⟨content, 0⟩).1 = sha256Hex content)
  ∧ (∀ chunks : List (List Nat),
       (chunks.foldl Hasher.update Hasher.mkNew).hexdigest = sha256Hex chunks.flatten)
  ∧ (sha256File ⟨[], 0⟩).1 =
      "e3b0c44298fc1c149afbf4c8996fb92427ae41e4649b934ca495991b7852b855" := by
  refine ⟨?_, ?_, ?_⟩
  · intro content
    rw [sha256File_eq]
  · intro chunks
    rw [foldl_update_eq_join]
    rfl
  · rw [sha256File_eq]
    decide

/-- C2: a first upload by a fresh client creates the progress record
`(points 10, uploads 1, badges [])`; every upload by a client whose record
exists adds exactly ten points and one upload; and three sequential uploads
from a fresh client leave `(points 30, uploads 3)`. -/
theorem upload_ledger_sequential (s s2 : Store) (cid fn1 fn2 fn3 fn : String)
    (ct : Option String) (f1 f2 f3 f : PyFile) (r : UserProgress)
    (hfresh : findO (fun q => q.client_id == cid) s.userprogress = none)
    (hexist : findO (fun q => q.client_id == cid) s2.userprogress = some r) :
    findO (fun q => q.client_id == cid) (uploadStore s cid fn1 ct f1).userprogress
      = some ⟨cid, 10, 1, []⟩
  ∧ findO (fun q => q.client_id == cid) (uploadStore s2 cid fn ct f).userprogress
      = some (bumpProgress r)
  ∧ findO (fun q => q.client_id == cid)
      (uploadStore (uploadStore (uploadStore s cid fn1 ct f1) cid fn2 ct f2)
        cid fn3 ct f3).userprogress
      = some ⟨cid, 30, 3, []⟩ := by
  have h1 : findO (fun q => q.client_id == cid) (uploadStore s cid fn1 ct f1).userprogress
      = some ⟨cid, 10, 1, []⟩ := by
    rw [uploadStore_userprogress, awardList_fresh _ _ hfresh,
      findO_append_of_none _ _ _ hfresh]
    simp [findO]
  have h2 : findO (fun q => q.client_id == cid)
      (uploadStore (uploadStore s cid fn1 ct f1) cid fn2 ct f2).userprogress
      = some ⟨cid, 20, 2, []⟩ := by
    rw [uploadStore_userprogress]
    exact findO_awardList _ _ _ h1
  have h3 : findO (fun q => q.client_id == cid)
      (uploadStore (uploadStore (uploadStore s cid fn1 ct f1) cid fn2 ct f2)
        cid fn3 ct f3).userprogress
      = some ⟨cid, 30, 3, []⟩ := by
    rw [uploadStore_userprogress]
    exact findO_awardList _ _ _ h2
  exact ⟨h1, by rw [uploadStore_userprogress]; exact findO_awardList _ _ _ hexist, h3⟩

/-- Witness for C2 at a fresh client over an empty store with empty files. -/
theorem upload_ledger_sequential_witness :
    findO (fun q => q.client_id == "c") Store.new.userprogress = none
  ∧ findO (fun q => q.client_id == "c")
      ((⟨[], [⟨"c", 10, 1, []⟩], []⟩ : Store)).userprogress = some ⟨"c", 10, 1, []⟩
  ∧ findO (fun q => q.client_id == "c")
      (uploadStore (uploadStore (uploadStore Store.new "c" "a" none ⟨[], 0⟩)
        "c" "b" none ⟨[], 0⟩) "c" "d" none ⟨[], 0⟩).userprogress
      = some ⟨"c", 30, 3, []⟩ :=
  ⟨by decide, by decide,
   (upload_ledger_sequential Store.new ⟨[], [⟨"c", 10, 1, []⟩], []⟩ "c" "a" "b" "d" "e"
     none ⟨[], 0⟩ ⟨[], 0⟩ ⟨[], 0⟩ ⟨[], 0⟩ ⟨"c", 10, 1, []⟩ (by decide) (by decide)).2.2⟩

/-- C3 as stated is false on the code: with a fresh client, two concurrent
uploads can both run `find_one` before either write, so both insert a fresh
record; the completed run holds two records and the progress lookup reports
`(10, 1)`, not `(20, 2)` — a lost update. -/
theorem ledger_concurrent_fresh_lost_update :
    (lrun ⟨[], [OpPhase.ready, OpPhase.ready]⟩ [0, 1, 0, 1]).ops
      = [OpPhase.fin, OpPhase.fin]
  ∧ (lrun ⟨[], [OpPhase.ready, OpPhase.ready]⟩ [0, 1, 0, 1]).recs = [(10, 1), (10, 1)]
  ∧ lprogress (lrun ⟨[], [OpPhase.ready, OpPhase.ready]⟩ [0, 1, 0, 1]) ≠ (20, 2) := by
  decide

/-- C3 amended: for a client whose progress record already exists, `N`
concurrent uploads yield exactly `+10 N` points and `+N` uploads under every
interleaving, because each request's write is the storage layer's atomic
`$inc`; the unrestricted claim fails only on the racy create of a fresh
client's first records. -/
theorem ledger_concurrent_existing (p u N : Nat) (sched : List Nat)
    (hdone : (lrun ⟨[(p, u)], List.replicate N OpPhase.ready⟩ sched).ops
        = List.replicate N OpPhase.fin) :
    (lrun ⟨[(p, u)], List.replicate N OpPhase.ready⟩ sched).recs
      = [(p + 10 * N, u + N)] := by
  have hinv : LInv p u (lrun ⟨[(p, u)], List.replicate N OpPhase.ready⟩ sched) := by
    apply lrun_inv
    constructor
    · intro ph hm
      rw [List.eq_of_mem_replicate hm]
      rfl
    · rw [countFin_replicate]
      simp
  obtain ⟨hok, hrec⟩ := hinv
  rw [hrec, hdone, countFin_replicate_fin]

/-- Witness for the amended C3: two interleaved uploads on an existing
record `(3, 4)` end at exactly `(23, 6)`. -/
theorem ledger_concurrent_existing_witness :
    (lrun ⟨[(3, 4)], List.replicate 2 OpPhase.ready⟩ [0, 0, 1, 1]).ops
      = List.replicate 2 OpPhase.fin
  ∧ (lrun ⟨[(3, 4)], List.replicate 2 OpPhase.ready⟩ [0, 0, 1, 1]).recs
      = [(3 + 10 * 2, 4 + 2)] :=
  ⟨by decide, ledger_concurrent_existing 3 4 2 [0, 0, 1, 1] (by decide)⟩

/-- C4: for every upload, the stored `size_bytes` is the exact byte length
of the submitted content, independent of the 1 MiB chunking: the digest pass
seeks the source back to the origin, the size pass then reads the full
content, and the persisted record carries exactly that size and the
full-content digest. -/
theorem upload_size_exact (s : Store) (cid fn : String) (ct : Option String)
    (content : List Nat) :
    (sha256File ⟨content, 0⟩).2.pos = 0
  ∧ ((sha256File ⟨content, 0⟩).2.readAll).1 = content
  ∧ upload_file (some s) cid fn ct ⟨content, 0⟩
      = (.ok ⟨true, s.uploads.length, sha256Hex content⟩,
         some (awardUpload { s with uploads := s.uploads ++
           [⟨fn, ct.getD "application/octet-stream", content.length, sha256Hex content,
             "scanned", none, some cid⟩] } cid)) := by
  refine ⟨?_, ?_, ?_⟩
  · rw [sha256File_eq]
  · rw [sha256File_eq]
    simp [PyFile.readAll]
  · simp only [upload_file, sha256File_eq]
    simp [PyFile.readAll]

/-- C5: with a well-formed payload and the store configured, the report
handler always answers accepted with a boolean `sent` — mail failure never
surfaces as an error — and whenever any of host, user or password is
unconfigured the answer is `sent = false` and the report is persisted with
`sent_to_owner = false`. -/
theorem report_dispatch_best_effort (s : Store) (p : ReportRequest) (cfg : SmtpCfg)
    (now : Nat) (owner : String) (sendOk : Bool)
    (hv : emailOk p.from_email = true) :
    (report_issue (some s) p cfg now owner sendOk).1
        = .ok ⟨true, sentFlag cfg sendOk, owner⟩
  ∧ (mailConfigured cfg = false →
      sentFlag cfg sendOk = false
      ∧ (report_issue (some s) p cfg now owner sendOk).2
          = some { s with reports := s.reports ++ [reportOf p now] }
      ∧ (reportOf p now).sent_to_owner = false) := by
  constructor
  · rw [report_issue_ok s p cfg now owner sendOk hv]
  · intro hnc
    have hsf : sentFlag cfg sendOk = false := by
      cases hh : truthy cfg.host <;> cases hu : truthy cfg.user <;>
        cases hp2 : truthy cfg.passwd <;>
        simp [sentFlag, hh, hu, hp2] <;>
        simp [mailConfigured, hh, hu, hp2] at hnc
    refine ⟨hsf, ?_, rfl⟩
    rw [report_issue_ok s p cfg now owner sendOk hv, hsf]
    simp

/-- Witness for C5: empty mail configuration, a valid sender address, a
succeeding transport — yet `sent = false` and the stored report is unsent. -/
theorem report_dispatch_best_effort_witness :
    emailOk (some "a@b.c") = true
  ∧ mailConfigured ⟨none, none, none, none⟩ = false
  ∧ sentFlag ⟨none, none, none, none⟩ true = false
  ∧ (report_issue (some Store.new) ⟨"c", "s", "m", some "a@b.c"⟩
       ⟨none, none, none, none⟩ 0 "o" true).2
      = some { Store.new with reports :=
          Store.new.reports ++ [reportOf ⟨"c", "s", "m", some "a@b.c"⟩ 0] }
  ∧ (reportOf ⟨"c", "s", "m", some "a@b.c"⟩ 0).sent_to_owner = false :=
  ⟨by decide, by decide,
   (report_dispatch_best_effort Store.new ⟨"c", "s", "m", some "a@b.c"⟩
     ⟨none, none, none, none⟩ 0 "o" true (by decide)).2 (by decide)⟩

/-- C6 is falsified on its "failed delivery leaves the record false
permanently" part: report R1 `(client "c", subject "s")` is submitted with
no mail configuration, so its delivery fails and it is persisted unsent;
then a duplicate report R2 with the same client and subject is submitted
with full configuration and a succeeding transport.  The delivery mark of
src/main.py line 165 targets the first record matching the non-unique
`(client_id, subject)` filter — which is R1 — so the record whose own
delivery failed ends at `sent_to_owner = true` while R2, whose delivery was
the one confirmed, stays `false`. -/
theorem report_failed_delivery_flipped_by_duplicate :
    (report_issue (some Store.new) ⟨"c", "s", "m1", none⟩
       ⟨none, none, none, none⟩ 0 "o" false).1 = .ok ⟨true, false, "o"⟩
  ∧ (reportStep Store.new
       ⟨⟨"c", "s", "m1", none⟩, ⟨none, none, none, none⟩, 0, "o", false⟩).reports
      = [⟨some "c", "s", "m1", none, false, some 0⟩]
  ∧ ((runReports Store.new
       [⟨⟨"c", "s", "m1", none⟩, ⟨none, none, none, none⟩, 0, "o", false⟩,
        ⟨⟨"c", "s", "m2", none⟩, ⟨some "h", none, some "u", some "pw"⟩, 1, "o", true⟩]
      ).reports.getD 0 dRep).sent_to_owner = true
  ∧ ((runReports Store.new
       [⟨⟨"c", "s", "m1", none⟩, ⟨none, none, none, none⟩, 0, "o", false⟩,
        ⟨⟨"c", "s", "m2", none⟩, ⟨some "h", none, some "u", some "pw"⟩, 1, "o", true⟩]
      ).reports.getD 1 dRep).sent_to_owner = false := by
  decide

/-- C6 amended: a report record is created with `sent_to_owner = false`; no
operation ever clears a set flag — it survives the step and any later
sequence of submissions, so true→false never happens and false→true at
most once per record; a call whose delivery fails or is skipped appends its
unsent record and changes no flag at all; and after a call a set flag was
either already set in the post-creation collection or that call confirmed
a delivery.  What the original claim adds and the code violates is
permanence of the failed state: the mark targets the first record matching
the non-unique `(client_id, subject)` key, so a later duplicate's confirmed
delivery can set the flag of an earlier record whose own delivery failed —
see the counterexample above. -/
theorem report_sent_flag_lifecycle (s : Store) (c : ReportCall)
    (cs : List ReportCall) (i : Nat)
    (htrue : ((s.reports.getD i dRep).sent_to_owner) = true) :
    (reportOf c.p c.now).sent_to_owner = false
  ∧ (((reportStep s c).reports.getD i dRep).sent_to_owner) = true
  ∧ (((runReports s cs).reports.getD i dRep).sent_to_owner) = true
  ∧ (sentFlag c.cfg c.sendOk = false → emailOk c.p.from_email = true →
      (reportStep s c).reports = s.reports ++ [reportOf c.p c.now])
  ∧ (∀ j : Nat, (((reportStep s c).reports.getD j dRep).sent_to_owner) = true →
      ((s.reports ++ [reportOf c.p c.now]).getD j dRep).sent_to_owner = true
        ∨ sentFlag c.cfg c.sendOk = true) := by
  refine ⟨rfl, reportStep_flag_mono s c i htrue, runReports_flag_mono cs s i htrue,
    ?_, ?_⟩
  · intro hs hv
    simp [reportStep, report_issue_ok s c.p c.cfg c.now c.owner c.sendOk hv, hs]
  · intro j hj
    cases hv : emailOk c.p.from_email
    · left
      have hrep : (reportStep s c).reports = s.reports := by
        simp [reportStep, report_issue_err s c.p c.cfg c.now c.owner c.sendOk hv]
      rw [hrep] at hj
      have hjlt : j < s.reports.length := by
        by_contra hge
        rw [getD_of_le _ _ _ (by omega)] at hj
        simp [dRep] at hj
      rw [getD_append_lt _ _ _ _ hjlt]
      exact hj
    · cases hs : sentFlag c.cfg c.sendOk
      · left
        have hrep : (reportStep s c).reports = s.reports ++ [reportOf c.p c.now] := by
          simp [reportStep, report_issue_ok s c.p c.cfg c.now c.owner c.sendOk hv, hs]
        rw [hrep] at hj
        exact hj
      · right; rfl

/-- Witness for C6: one prior delivered report survives an unconfigured
submission untouched, and the new record is created unsent. -/
theorem report_sent_flag_lifecycle_witness :
    ((((⟨[], [], [⟨none, "x", "y", none, true, none⟩]⟩ : Store)).reports.getD 0 dRep).sent_to_owner) = true
  ∧ (reportOf ⟨"c", "s", "m", none⟩ 0).sent_to_owner = false
  ∧ (((reportStep ⟨[], [], [⟨none, "x", "y", none, true, none⟩]⟩
        ⟨⟨"c", "s", "m", none⟩, ⟨none, none, none, none⟩, 0, "o", false⟩).reports.getD 0
        dRep).sent_to_owner) = true :=
  ⟨by decide,
   (report_sent_flag_lifecycle ⟨[], [], [⟨none, "x", "y", none, true, none⟩]⟩
     ⟨⟨"c", "s", "m", none⟩, ⟨none, none, none, none⟩, 0, "o", false⟩ [] 0 (by decide)).1,
   (report_sent_flag_lifecycle ⟨[], [], [⟨none, "x", "y", none, true, none⟩]⟩
     ⟨⟨"c", "s", "m", none⟩, ⟨none, none, none, none⟩, 0, "o", false⟩ [] 0 (by decide)).2.1⟩

/-- C7: when the store connection is unavailable, both write endpoints fail
with the controlled configuration error — an HTTP error response carrying
status 500 and detail "Database not configured" — rather than crash, and
nothing is retried: the handlers return at once with no store to touch. -/
theorem store_unavailable_config_error (cid fn : String) (ct : Option String)
    (f : PyFile) (p : ReportRequest) (cfg : SmtpCfg) (now : Nat) (owner : String)
    (sendOk : Bool) :
    upload_file none cid fn ct f = (.httpError 500 "Database not configured", none)
  ∧ report_issue none p cfg now owner sendOk
      = (.httpError 500 "Database not configured", none) :=
  ⟨rfl, rfl⟩

/-- C8 is falsified at a malformed sender address: the report handler lets
pydantic's validation error escape, which FastAPI surfaces as HTTP 500 — a
server error, not the client-error response the claim asserts. -/
theorem report_invalid_email_not_client_error :
    validEmail "not-an-email" = false
  ∧ (report_issue (some Store.new) ⟨"c1", "subj", "msg", some "not-an-email"⟩
       ⟨none, none, none, none⟩ 0 "owner" true).1
      = .serverError "value is not a valid email address"
  ∧ isClientError (HResp.status (report_issue (some Store.new)
       ⟨"c1", "subj", "msg", some "not-an-email"⟩
       ⟨none, none, none, none⟩ 0 "owner" true).1) = false := by
  decide

/-- C8 amended: malformed input is rejected before any persistence — the
empty question as a client-error 400, the malformed report email as a
server-error 500 (pydantic's exception escaping the handler), with the store
left exactly as it was in both cases (the ask handler touches no store at
all). -/
theorem validation_rejected_before_persistence (payload : AskRequest) (s : Store)
    (p : ReportRequest) (cfg : SmtpCfg) (now : Nat) (owner : String) (sendOk : Bool)
    (hq : pyStrip payload.question.toList = []) (he : emailOk p.from_email = false) :
    ask_ai payload = .httpError 400 "Question cannot be empty"
  ∧ isClientError (HResp.status (ask_ai payload)) = true
  ∧ report_issue (some s) p cfg now owner sendOk
      = (.serverError "value is not a valid email address", some s)
  ∧ HResp.status (report_issue (some s) p cfg now owner sendOk).1 = 500 := by
  have hq2 : pyStrip payload.question.data = [] := hq
  have ha : ask_ai payload = .httpError 400 "Question cannot be empty" := by
    simp [ask_ai, hq2]
  refine ⟨ha, by rw [ha]; rfl, report_issue_err s p cfg now owner sendOk he, ?_⟩
  rw [report_issue_err s p cfg now owner sendOk he]
  rfl

/-- Witness for the amended C8: a whitespace question and a dotless address. -/
theorem validation_rejected_before_persistence_witness :
    pyStrip (String.toList "   ") = []
  ∧ emailOk (some "not-an-email") = false
  ∧ ask_ai ⟨"   ", none⟩ = .httpError 400 "Question cannot be empty"
  ∧ report_issue (some Store.new) ⟨"c", "s", "m", some "not-an-email"⟩
      ⟨none, none, none, none⟩ 0 "o" false
      = (.serverError "value is not a valid email address", some Store.new) :=
  ⟨by decide, by decide,
   (validation_rejected_before_persistence ⟨"   ", none⟩ Store.new
     ⟨"c", "s", "m", some "not-an-email"⟩ ⟨none, none, none, none⟩ 0 "o" false
     (by decide) (by decide)).1,
   (validation_rejected_before_persistence ⟨"   ", none⟩ Store.new
     ⟨"c", "s", "m", some "not-an-email"⟩ ⟨none, none, none, none⟩ 0 "o" false
     (by decide) (by decide)).2.2.1⟩

/-- C9: a progress lookup for a client with no record answers exactly the
zero-value defaults, with the store configured or not; the handler has no
failure path at all, as its plain result type shows. -/
theorem get_progress_unknown_defaults (s : Store) (cid : String)
    (h : findO (fun r => r.client_id == cid) s.userprogress = none) :
    get_progress (some s) cid = ⟨0, 0, []⟩ ∧ get_progress none cid = ⟨0, 0, []⟩ := by
  constructor
  · simp [get_progress, h]
  · rfl

/-- Witness for C9: an unknown client against a store holding another
client's record. -/
theorem get_progress_unknown_defaults_witness :
    findO (fun r => r.client_id == "nobody")
      ((⟨[], [⟨"other", 5, 2, []⟩], []⟩ : Store)).userprogress = none
  ∧ get_progress (some ⟨[], [⟨"other", 5, 2, []⟩], []⟩) "nobody" = ⟨0, 0, []⟩
  ∧ get_progress none "nobody" = ⟨0, 0, []⟩ :=
  ⟨by decide,
   (get_progress_unknown_defaults ⟨[], [⟨"other", 5, 2, []⟩], []⟩ "nobody" (by decide)).1,
   (get_progress_unknown_defaults ⟨[], [⟨"other", 5, 2, []⟩], []⟩ "nobody" (by decide)).2⟩

/-- C10: with no store connection, the read-only endpoints surface no
configuration error: the progress lookup answers the zero-value defaults
and the recent-uploads listing answers the empty list, for every input. -/
theorem offline_reads_default (cid : String) (limit : Nat) :
    get_progress none cid = ⟨0, 0, []⟩ ∧ recent_uploads none limit = [] :=
  ⟨rfl, rfl⟩

end Nova
